import Mathlib

/-!
Verification of the jobAnalyzer repository (a job-application automation
tool).  Python strings are embedded as lists of characters, Python floats
arising from skill-ratio arithmetic as rationals, CSV contents as lists of
rows, and the effectful scraping loop as a function over an explicit
environment of fallible operations.
-/

namespace JobAnalyzer

/-- A Python string, embedded as its list of characters. -/
abbrev Str := List Char

/-- Python `s.lower()` applied to a string (ASCII case folding, as in
`Char.toLower`). -/
def strLower (s : Str) : Str := s.map Char.toLower

/-- `skill_match_percentage` from `src/data_processing.py`: the guard
`if not required_skills: return 0.0`, then lowercasing of both lists,
`set(...).intersection(set(...))`, and
`len(matched_skills) / len(required_skills_lower) * 100`. -/
def skill_match_percentage (required_skills current_skills : List Str) : ℚ :=
  if required_skills = [] then 0
  else
    let required_skills_lower := required_skills.map strLower
    let current_skills_lower := current_skills.map strLower
    let matched_skills :=
      required_skills_lower.toFinset ∩ current_skills_lower.toFinset
    (matched_skills.card : ℚ) / (required_skills_lower.length : ℚ) * 100

/-- The skill matcher as claim C1 words it: the denominator is the number
of **distinct** required skills after case folding.  Written from the
spec sentence, to be compared with `skill_match_percentage`. -/
def skill_match_claimed (required_skills current_skills : List Str) : ℚ :=
  let req := (required_skills.map strLower).toFinset
  let cur := (current_skills.map strLower).toFinset
  if req.card = 0 then 0
  else ((req ∩ cur).card : ℚ) / (req.card : ℚ) * 100

/-! ### Listing records built by `request` (second definition in
`src/data_processing.py`; Python shadowing makes it the effective one). -/

/-- One job object of the embedded JSON payload, as the fields `request`
reads from it.  `employmentTypes` entries carry the already-stringified
`fromPln`/`toPln` values; `city` and `companyName` may be absent. -/
structure RawJob where
  slug : Str
  title : Str
  requiredSkills : List Str
  niceToHaveSkills : List Str
  workplaceType : Str
  remoteInterview : Bool
  employmentTypes : List (Str × Str)
  city : Option Str
  companyName : Option Str

/-- A row of the output CSV, as the dict literal in `request` builds it. -/
structure ListingRow where
  TITLE : Str
  REQUIRED_SKILLS : Str
  ADDITIONAL_SKILLS : Str
  WORKPLACE_TYPE : Str
  REMOTE_INTERVIEW : Bool
  URL : Str
  PAYMENT_FROM : Str
  PAYMENT_TO : Str
  LOCATION : Str
  COMPANY : Str
  DATE : Str
  JOB_TYPE : Str
  MATCH_PERCENTAGE : ℚ

/-- Python `repr` of a string: surrounding single quotes. -/
def pyQuote (s : Str) : Str := '\'' :: (s ++ ['\''])

/-- Python `str()` applied to a list of strings, e.g. `"['a', 'b']"`.
`request` passes `str(data["requiredSkills"])` to the skill matcher and
stores it in the REQUIRED_SKILLS column. -/
def pyStrOfList (xs : List Str) : Str :=
  '[' :: (List.intercalate [',', ' '] (xs.map pyQuote) ++ [']'])

/-- Iterating over a Python string yields its one-character substrings;
this is what `skill_match_percentage` receives when `request` hands it the
`str(...)` of the skill list. -/
def strIter (s : Str) : List Str := s.map (fun c => [c])

/-- The row dict built for one listing inside `request`
(`src/data_processing.py`, second definition): `emp` is
`data["employmentTypes"][0]`, `today` the formatted current date. -/
def mkListingRow (j : RawJob) (emp : Str × Str) (today job_type : Str)
    (current_skills : List Str) : ListingRow :=
  { TITLE := j.title
    REQUIRED_SKILLS := pyStrOfList j.requiredSkills
    ADDITIONAL_SKILLS := pyStrOfList j.niceToHaveSkills
    WORKPLACE_TYPE := j.workplaceType
    REMOTE_INTERVIEW := j.remoteInterview
    URL := "https://justjoin.it/offers/".data ++ j.slug
    PAYMENT_FROM := emp.1
    PAYMENT_TO := emp.2
    LOCATION := j.city.getD "Unknown".data
    COMPANY := j.companyName.getD "Unknown".data
    DATE := today
    JOB_TYPE := job_type
    MATCH_PERCENTAGE :=
      skill_match_percentage (strIter (pyStrOfList j.requiredSkills))
        current_skills }

/-! ### `sanitize_filename` from `src/data_processing.py` -/

/-- Python `s.replace(a, b)` for one-character patterns. -/
def pyReplace (a b : Char) (s : Str) : Str :=
  s.map fun c => if c = a then b else c

/-- Python `s.replace(a, "")` for a one-character pattern. -/
def pyRemove (a : Char) (s : Str) : Str :=
  s.filter fun c => c ≠ a

/-- `sanitize_filename`: the chain of `.replace` calls in source order
(note the second `:` replacement is reached only after `:` was already
removed). -/
def sanitize_filename (filename : Str) : Str :=
  pyReplace ')' '_'
    (pyReplace '(' '_'
      (pyReplace ':' '_'
        (pyRemove '>'
          (pyRemove '<'
            (pyRemove '?'
              (pyRemove ':'
                (pyRemove '|'
                  (pyRemove '*'
                    (pyReplace '\\' '_'
                      (pyReplace '/' '_'
                        (pyReplace '-' '_'
                          (pyReplace ' ' '_' filename))))))))))))

/-- Per-character effect of `sanitize_filename`: replaced by `'_'`,
removed, or kept. -/
def sanitizeChar (c : Char) : List Char :=
  if c = ' ' ∨ c = '-' ∨ c = '/' ∨ c = '\\' ∨ c = '(' ∨ c = ')' then ['_']
  else if c = '*' ∨ c = '|' ∨ c = ':' ∨ c = '?' ∨ c = '<' ∨ c = '>' then []
  else [c]

/-- The characters claim C9 says never survive sanitisation. -/
def bannedChars : List Char :=
  [' ', '-', '/', '\\', '*', '|', ':', '?', '<', '>', '(', ')']

/-! ### The CSV aggregator (`src/whole.py`) -/

/-- A CSV row as an association list from column name to cell value.  CSV
cells are modelled as round-tripping as strings (the pandas dtype
inference performed by `read_csv` is outside the embedding). -/
abbrev RowA := List (String × String)

/-- Reading one cell; a missing column reads as the empty value. -/
def getCol (r : RowA) (c : String) : String := (r.lookup c).getD ""

/-- The deduplication key of `save_to_csv`:
`subset=["TITLE", "PAYMENT_FROM", "PAYMENT_TO"]`. -/
def rowKey (r : RowA) : String × String × String :=
  (getCol r "TITLE", getCol r "PAYMENT_FROM", getCol r "PAYMENT_TO")

/-- Worker for `dropDuplicatesKey`: `seen` accumulates the keys of rows
already kept. -/
def dropDupAux (seen : List (String × String × String)) :
    List RowA → List RowA
  | [] => []
  | r :: rs =>
      if rowKey r ∈ seen then dropDupAux seen rs
      else r :: dropDupAux (rowKey r :: seen) rs

/-- pandas `drop_duplicates(subset=...)` with the default `keep="first"`:
a row survives iff no earlier row has the same key, order preserved. -/
def dropDuplicatesKey (l : List RowA) : List RowA := dropDupAux [] l

/-- The fixed column set `save_to_csv` forces on its output, in order. -/
def required_columns : List String :=
  ["TITLE", "REQUIRED_SKILLS", "ADDITIONAL_SKILLS", "WORKPLACE_TYPE",
   "REMOTE_INTERVIEW", "URL", "PAYMENT_FROM", "PAYMENT_TO", "LOCATION",
   "COMPANY", "DATE", "JOB_TYPE"]

/-- Restricting a row to `required_columns` (missing columns filled with
the empty value, as the `combined_df[col] = ""` loop plus the final
column projection do). -/
def projectRow (r : RowA) : RowA :=
  required_columns.map fun c => (c, getCol r c)

/-- `save_to_csv` from `src/whole.py`: on empty data the file is left
unchanged ("No data to save"); otherwise the new rows are appended after
the existing ones (`pd.concat([existing_df, df])` when the file exists),
deduplicated on the key, and projected onto the fixed column set.
`none` models an absent file. -/
def save_to_csv (data : List RowA) (existing : Option (List RowA)) :
    Option (List RowA) :=
  if data.isEmpty then existing
  else
    let combined :=
      match existing with
      | some ex => ex ++ data
      | none => data
    some ((dropDuplicatesKey combined).map projectRow)

/-- The raw cumulative append done inside `request`
(`df.to_csv(whole_file_path, mode="a", ...)` in
`src/data_processing.py`): plain concatenation, no deduplication. -/
def appendOutputWhole (existing : Option (List RowA)) (newRows : List RowA) :
    List RowA :=
  match existing with
  | some ex => ex ++ newRows
  | none => newRows

/-! ### `request` with its effect environment (`src/data_processing.py`,
second definition) -/

/-- The exception kinds the `try` block of `request` can see. -/
inductive PyErr where
  | network
  | parseFail
  | indexOut
  | fileIo
deriving DecidableEq

/-- The fallible operations `request` performs, supplied as an oracle:
deleting the stale `output_data.csv`, the HTTP GET, the
split/`json.loads` extraction of the listing array, the per-listing side
effects (directory creation, job-description fetch, CV and cover-letter
generation), and the CSV writes. -/
structure ScrapeEnv where
  removeOldCsv : Except PyErr Unit
  httpGet : Str → Except PyErr Str
  extractListings : Str → Except PyErr (List RawJob)
  processListing : RawJob → Except PyErr Unit
  writeCsv : Str → List ListingRow → Except PyErr Unit
  today : Str

/-- `data["employmentTypes"][0]` — raises `IndexError` on an empty list. -/
def firstEmployment (j : RawJob) : Except PyErr (Str × Str) :=
  match j.employmentTypes with
  | [] => Except.error PyErr.indexOut
  | e :: _ => Except.ok e

/-- The body of the `try` block of `request`: clear the stale CSV, two
GETs (the first response is unused), extract the listing array, build a
row and run the document-generation side effects per listing, then write
both CSV files.  Any error aborts the rest of the body. -/
def requestBody (env : ScrapeEnv) (current_skills : List Str)
    (url job_type : Str) : Except PyErr (List ListingRow) := do
  let _ ← env.removeOldCsv
  let _ ← env.httpGet url
  let text ← env.httpGet url
  let jobs ← env.extractListings text
  let rows ← jobs.mapM fun j => do
    let emp ← firstEmployment j
    let _ ← env.processListing j
    pure (mkListingRow j emp env.today job_type current_skills)
  let _ ← env.writeCsv "output_data.csv".data rows
  let _ ← env.writeCsv "output_whole.csv".data rows
  pure rows

/-- `request`: the `try`/`except` wrapper — on any error the exception is
swallowed and an empty DataFrame (here: the empty row list) is returned.
The `whole.py` variant has the same shape with an added non-200 branch
that also returns an empty DataFrame. -/
def request (env : ScrapeEnv) (current_skills : List Str)
    (url job_type : Str) : List ListingRow :=
  match requestBody env current_skills url job_type with
  | Except.ok rows => rows
  | Except.error _ => []

/-! ### The elbow-based cluster count selector.

Modelled from the spec: the selector lives in the visualization code,
which is not under `src/`.  Spec §4.2: fit each candidate count, record
its distortion, measure bend sharpness as the angle at each interior
point of the distortion-vs-count curve between the vectors to its two
neighbours, take the maximum of the angle array, step back two positions,
floor the result at 2 clusters; fewer than 3 candidate counts yield the
default of 2.  The angle itself is represented by a strictly decreasing
proxy: for vectors `u = (-1, dl)` and `v = (1, dr)` to the neighbours,
`scos = sign(u·v) * (u·v)^2 / (|u|^2 |v|^2)` is a strictly increasing
function of the cosine, so the first maximum of the angle array is the
first minimum of the `scos` array. -/

/-- Signed squared cosine of the angle at interior point `i` of the
distortion curve (points `(k, d_k)` at consecutive integer abscissae). -/
def scosAt (d : List ℚ) (i : Nat) : ℚ :=
  let dl := d.getD (i - 1) 0 - d.getD i 0
  let dr := d.getD (i + 1) 0 - d.getD i 0
  let dot := -1 + dl * dr
  let n2 := (1 + dl ^ 2) * (1 + dr ^ 2)
  (if dot < 0 then -1 else 1) * dot ^ 2 / n2

/-- Minimum of a list of rationals (0 for the empty list, unused). -/
def listMin : List ℚ → ℚ
  | [] => 0
  | [x] => x
  | x :: y :: r => min x (listMin (y :: r))

/-- Index of the first minimum, matching numpy argmax tie-breaking after
the order flip from angle to `scos`. -/
def argminIdx : List ℚ → Nat
  | [] => 0
  | [_] => 0
  | x :: y :: r => if listMin (y :: r) < x then argminIdx (y :: r) + 1 else 0

/-- Modelled from the spec: the elbow-based cluster count selector of the
visualization code (not under `src/`).  `distortions` lists the fit
distortions for candidate counts `1, 2, …`; interior point `j + 1` of the
curve carries angle-array index `j`; the chosen count steps back two
positions from the count `j + 2` at the first sharpest bend and is
floored at 2; fewer than 3 candidates yield the default 2. -/
def select_cluster_count (distortions : List ℚ) : Nat :=
  if distortions.length < 3 then 2
  else
    let scosArr :=
      (List.range (distortions.length - 2)).map fun i => scosAt distortions (i + 1)
    let j := argminIdx scosArr
    max (j + 2 - 2) 2

/-! ### Helper lemmas for the skill matcher -/

lemma toNat_ofNat_of_lt {n : Nat} (h : n < 55296) :
    (Char.ofNat n).toNat = n := by
  rw [Char.ofNat, dif_pos (Or.inl h)]
  rfl

lemma toLower_toLower (c : Char) : c.toLower.toLower = c.toLower := by
  unfold Char.toLower
  by_cases h : c.toNat ≥ 65 ∧ c.toNat ≤ 90
  · rw [if_pos h]
    have hv : (Char.ofNat (c.toNat + 32)).toNat = c.toNat + 32 :=
      toNat_ofNat_of_lt (by omega)
    rw [if_neg (by omega)]
  · rw [if_neg h, if_neg h]

lemma strLower_strLower (s : Str) : strLower (strLower s) = strLower s := by
  unfold strLower
  rw [List.map_map]
  exact List.map_congr_left fun c _ => toLower_toLower c

/-- The matcher only looks at the case-folded lists. -/
lemma skill_match_congr {R R' C C' : List Str}
    (hR : R'.map strLower = R.map strLower)
    (hC : C'.map strLower = C.map strLower) :
    skill_match_percentage R' C' = skill_match_percentage R C := by
  unfold skill_match_percentage
  have hlen : R'.length = R.length := by
    have := congrArg List.length hR
    simpa using this
  by_cases h0 : R = []
  · subst h0
    have : R' = [] := List.length_eq_zero.mp (by simpa using hlen)
    rw [this, if_pos rfl, if_pos rfl]
  · have h0' : R' ≠ [] := fun he => h0 (List.length_eq_zero.mp (by
      rw [← hlen, he]; rfl))
    rw [if_neg h0, if_neg h0']
    simp only []
    rw [hR, hC]

/-- 0 ≤ matcher ≤ 100, for any inputs. -/
lemma skill_match_range (R C : List Str) :
    0 ≤ skill_match_percentage R C ∧ skill_match_percentage R C ≤ 100 := by
  unfold skill_match_percentage
  split
  · norm_num
  · rename_i hR
    simp only []
    have hlen : 0 < (R.map strLower).length := by
      rw [List.length_map]
      exact List.length_pos.mpr hR
    have hcard :
        ((R.map strLower).toFinset ∩ (C.map strLower).toFinset).card ≤
          (R.map strLower).length :=
      le_trans (Finset.card_le_card Finset.inter_subset_left)
        (R.map strLower).toFinset_card_le
    have hlenQ : (0 : ℚ) < ((R.map strLower).length : ℚ) := by
      exact_mod_cast hlen
    constructor
    · positivity
    · have h1 : (((R.map strLower).toFinset ∩
          (C.map strLower).toFinset).card : ℚ) /
            ((R.map strLower).length : ℚ) ≤ 1 := by
        rw [div_le_one hlenQ]
        exact_mod_cast hcard
      calc (((R.map strLower).toFinset ∩ (C.map strLower).toFinset).card : ℚ)
            / ((R.map strLower).length : ℚ) * 100 ≤ 1 * 100 :=
          mul_le_mul_of_nonneg_right h1 (by norm_num)
        _ = 100 := one_mul 100

/-! ### Helper lemmas for `sanitize_filename` -/

lemma sanitize_cons (c : Char) (s : Str) :
    sanitize_filename (c :: s) = sanitizeChar c ++ sanitize_filename s := by
  by_cases h1 : c = ' '
  · subst h1; simp [sanitize_filename, pyReplace, pyRemove, sanitizeChar]
  · by_cases h2 : c = '-'
    · subst h2; simp [sanitize_filename, pyReplace, pyRemove, sanitizeChar]
    · by_cases h3 : c = '/'
      · subst h3; simp [sanitize_filename, pyReplace, pyRemove, sanitizeChar]
      · by_cases h4 : c = '\\'
        · subst h4; simp [sanitize_filename, pyReplace, pyRemove, sanitizeChar]
        · by_cases h5 : c = '*'
          · subst h5; simp [sanitize_filename, pyReplace, pyRemove, sanitizeChar]
          · by_cases h6 : c = '|'
            · subst h6
              simp [sanitize_filename, pyReplace, pyRemove, sanitizeChar]
            · by_cases h7 : c = ':'
              · subst h7
                simp [sanitize_filename, pyReplace, pyRemove, sanitizeChar]
              · by_cases h8 : c = '?'
                · subst h8
                  simp [sanitize_filename, pyReplace, pyRemove, sanitizeChar]
                · by_cases h9 : c = '<'
                  · subst h9
                    simp [sanitize_filename, pyReplace, pyRemove, sanitizeChar]
                  · by_cases h10 : c = '>'
                    · subst h10
                      simp [sanitize_filename, pyReplace, pyRemove,
                        sanitizeChar]
                    · by_cases h11 : c = '('
                      · subst h11
                        simp [sanitize_filename, pyReplace, pyRemove,
                          sanitizeChar]
                      · by_cases h12 : c = ')'
                        · subst h12
                          simp [sanitize_filename, pyReplace, pyRemove,
                            sanitizeChar]
                        · simp [sanitize_filename, pyReplace, pyRemove,
                            sanitizeChar, h1, h2, h3, h4, h5, h6, h7, h8,
                            h9, h10, h11, h12]

lemma sanitize_append (a b : Str) :
    sanitize_filename (a ++ b) = sanitize_filename a ++ sanitize_filename b := by
  induction a with
  | nil => rfl
  | cons c a ih =>
      rw [List.cons_append, sanitize_cons, sanitize_cons, ih, List.append_assoc]

lemma sanitize_eq_bind (s : Str) : sanitize_filename s = s.flatMap sanitizeChar := by
  induction s with
  | nil => rfl
  | cons c s ih => rw [sanitize_cons, ih, List.flatMap_cons]

lemma sanitizeChar_fixed (c : Char) :
    sanitize_filename (sanitizeChar c) = sanitizeChar c := by
  unfold sanitizeChar
  split
  · decide
  · split
    · decide
    · rename_i h1 h2
      rw [sanitize_eq_bind, List.flatMap_cons, List.flatMap_nil, List.append_nil]
      unfold sanitizeChar
      rw [if_neg h1, if_neg h2]

lemma sanitizeChar_banned_free (c : Char) :
    ((sanitizeChar c).all fun x => !(bannedChars.contains x)) = true := by
  unfold sanitizeChar
  split
  · decide
  · split
    · decide
    · rename_i h1 h2
      push_neg at h1 h2
      obtain ⟨n1, n2, n3, n4, n5, n6⟩ := h1
      obtain ⟨n7, n8, n9, n10, n11, n12⟩ := h2
      simp [bannedChars, n1, n2, n3, n4, n5, n6, n7, n8, n9, n10, n11, n12]

/-! ### Helper lemmas for the aggregator -/

lemma dropDupAux_sublist (seen : List (String × String × String))
    (l : List RowA) : (dropDupAux seen l).Sublist l := by
  induction l generalizing seen with
  | nil => simp [dropDupAux]
  | cons r rs ih =>
      rw [dropDupAux]
      split
      · exact (ih seen).trans (List.sublist_cons_self _ _)
      · exact (ih _).cons₂ r

lemma dropDupAux_not_seen (seen : List (String × String × String))
    (l : List RowA) :
    ∀ x ∈ dropDupAux seen l, rowKey x ∉ seen := by
  induction l generalizing seen with
  | nil => simp [dropDupAux]
  | cons r rs ih =>
      rw [dropDupAux]
      split
      · exact ih seen
      · rename_i hr
        intro x hx
        rcases List.mem_cons.mp hx with hx | hx
        · subst hx; exact hr
        · have := ih (rowKey r :: seen) x hx
          exact fun hm => this (List.mem_cons_of_mem _ hm)

lemma dropDupAux_pairwise (seen : List (String × String × String))
    (l : List RowA) :
    (dropDupAux seen l).Pairwise fun a b => rowKey a ≠ rowKey b := by
  induction l generalizing seen with
  | nil => simp [dropDupAux]
  | cons r rs ih =>
      rw [dropDupAux]
      split
      · exact ih seen
      · refine List.Pairwise.cons ?_ (ih _)
        intro b hb heq
        exact dropDupAux_not_seen _ _ b hb (heq ▸ List.mem_cons_self _ _)

lemma dropDuplicatesKey_pairwise (l : List RowA) :
    (dropDuplicatesKey l).Pairwise fun a b => rowKey a ≠ rowKey b :=
  dropDupAux_pairwise [] l

lemma dropDupAux_first_mem (e : RowA) :
    ∀ (l1 : List RowA) (l2 : List RowA)
      (seen : List (String × String × String)),
      rowKey e ∉ seen → (∀ x ∈ l1, rowKey x ≠ rowKey e) →
      e ∈ dropDupAux seen (l1 ++ e :: l2) := by
  intro l1
  induction l1 with
  | nil =>
      intro l2 seen hseen _
      rw [List.nil_append, dropDupAux, if_neg hseen]
      exact List.mem_cons_self _ _
  | cons a l1 ih =>
      intro l2 seen hseen hfirst
      rw [List.cons_append, dropDupAux]
      have hae : rowKey a ≠ rowKey e := hfirst a (List.mem_cons_self _ _)
      have hfirst' : ∀ x ∈ l1, rowKey x ≠ rowKey e :=
        fun x hx => hfirst x (List.mem_cons_of_mem _ hx)
      split
      · exact ih l2 seen hseen hfirst'
      · refine List.mem_cons_of_mem _ (ih l2 _ ?_ hfirst')
        intro hm
        rcases List.mem_cons.mp hm with hm | hm
        · exact hae hm.symm
        · exact hseen hm

/-- A row that is the first occurrence of its key survives
deduplication. -/
lemma dropDuplicatesKey_first_mem (e : RowA) (l1 l2 : List RowA)
    (hfirst : ∀ x ∈ l1, rowKey x ≠ rowKey e) :
    e ∈ dropDuplicatesKey (l1 ++ e :: l2) :=
  dropDupAux_first_mem e l1 l2 [] (List.not_mem_nil _) hfirst

lemma rowKey_projectRow (r : RowA) : rowKey (projectRow r) = rowKey r := by
  simp [rowKey, projectRow, required_columns, getCol, List.lookup]

lemma projectRow_fst (r : RowA) :
    (projectRow r).map Prod.fst = required_columns := rfl

/-! ### Helper lemmas for `request` and the cluster selector -/

lemma exbind_ok {A B : Type} (a : A) (f : A → Except PyErr B) :
    (Except.ok a >>= f) = f a := rfl

lemma exbind_err {A B : Type} (e : PyErr) (f : A → Except PyErr B) :
    ((Except.error e : Except PyErr A) >>= f) = Except.error e := rfl

lemma getD_range_map (a b : ℚ) (n k : ℕ) (hk : k < n) :
    (((List.range n).map fun i : ℕ => a + b * (i : ℚ)).getD k 0) = a + b * k := by
  rw [List.getD_eq_getElem?_getD, List.getElem?_map, List.getElem?_range hk]
  rfl

lemma scosAt_affine (a b : ℚ) (n i : ℕ) (h2 : i + 2 < n) :
    scosAt ((List.range n).map fun j : ℕ => a + b * (j : ℚ)) (i + 1) = -1 := by
  unfold scosAt
  simp only [Nat.add_sub_cancel]
  rw [getD_range_map a b n i (by omega), getD_range_map a b n (i + 1) (by omega),
      getD_range_map a b n (i + 1 + 1) (by omega)]
  push_cast
  rw [show a + b * (i : ℚ) - (a + b * ((i : ℚ) + 1)) = -b by ring,
      show a + b * ((i : ℚ) + 1 + 1) - (a + b * ((i : ℚ) + 1)) = b by ring]
  rw [if_pos (by nlinarith [sq_nonneg b])]
  have hX : ((1 + (-b) ^ 2) * (1 + b ^ 2)) ≠ 0 := by positivity
  rw [div_eq_iff hX]
  ring

lemma listMin_const (c : ℚ) :
    ∀ (l : List ℚ), l ≠ [] → (∀ x ∈ l, x = c) → listMin l = c
  | [], h, _ => absurd rfl h
  | [x], _, hm => by simpa [listMin] using hm x (List.mem_cons_self _ _)
  | x :: y :: r, _, hm => by
      rw [listMin, listMin_const c (y :: r) (by simp)
        (fun z hz => hm z (List.mem_cons_of_mem _ hz)),
        hm x (List.mem_cons_self _ _), min_self]

lemma argminIdx_const (c : ℚ) (l : List ℚ) (hm : ∀ x ∈ l, x = c) :
    argminIdx l = 0 := by
  match l with
  | [] => rfl
  | [x] => rfl
  | x :: y :: r =>
      rw [argminIdx, if_neg]
      rw [listMin_const c (y :: r) (by simp)
        (fun z hz => hm z (List.mem_cons_of_mem _ hz)),
        hm x (List.mem_cons_self _ _)]
      exact lt_irrefl c

/-! ## Claim theorems -/

/-- C1 (counterexample): with the duplicate-modulo-case required list
`["a", "A"]` and current list `["a"]`, the code returns 50 while the
claimed formula — whose denominator is the number of distinct required
skills after case folding — yields 100. -/
theorem C1_counterexample :
    skill_match_percentage [['a'], ['A']] [['a']] = 50 ∧
    skill_match_claimed [['a'], ['A']] [['a']] = 100 ∧
    skill_match_percentage [['a'], ['A']] [['a']] ≠
      skill_match_claimed [['a'], ['A']] [['a']] := by
  have h1 : ((List.map strLower [['a'], ['A']]).toFinset ∩
      (List.map strLower [['a']]).toFinset).card = 1 := by decide
  have h2 : (List.map strLower [['a'], ['A']]).length = 2 := by decide
  have h3 : (List.map strLower [['a'], ['A']]).toFinset.card = 1 := by decide
  have hc : skill_match_percentage [['a'], ['A']] [['a']] = 50 := by
    unfold skill_match_percentage
    rw [if_neg (by decide)]
    simp only []
    rw [h1, h2]
    norm_num
  have hs : skill_match_claimed [['a'], ['A']] [['a']] = 100 := by
    unfold skill_match_claimed
    simp only []
    rw [if_neg (by rw [h3]; exact one_ne_zero), h1, h3]
    norm_num
  refine ⟨hc, hs, ?_⟩
  rw [hc, hs]
  norm_num

/-- C1 (amended): `skill_match_percentage` returns the number of distinct
case-folded required skills also present among the case-folded current
skills, divided by the **length of the required list** (duplicates and
case variants counted), times 100; an empty required list yields 0. -/
theorem C1_skill_match_ratio (R C : List Str) :
    skill_match_percentage R C =
      if R = [] then 0
      else (((R.map strLower).toFinset ∩ (C.map strLower).toFinset).card : ℚ)
        / (R.length : ℚ) * 100 := by
  unfold skill_match_percentage
  split
  · rfl
  · simp only [List.length_map]

/-- C2: the matcher returns 0 on an empty required list, and whenever the
division in its body is evaluated (required list non-empty) the divisor
`len(required_skills_lower)` is positive — no division by zero. -/
theorem C2_empty_required_no_div_zero (C : List Str) :
    skill_match_percentage [] C = 0 ∧
    ∀ R : List Str, R ≠ [] → 0 < (R.map strLower).length := by
  constructor
  · unfold skill_match_percentage
    rw [if_pos rfl]
  · intro R hR
    rw [List.length_map]
    exact List.length_pos.mpr hR

theorem C2_witness :
    skill_match_percentage [] [['x']] = 0 ∧
    0 < ([['a']].map strLower).length :=
  ⟨(C2_empty_required_no_div_zero [['x']]).1,
   (C2_empty_required_no_div_zero [['x']]).2 [['a']] (by decide)⟩

/-- C3 (counterexample): the claim `matcher(X, X) = 100` for every
non-empty `X` fails at `X = ["a", "a"]`, where the code returns 50. -/
theorem C3_counterexample :
    skill_match_percentage [['a'], ['a']] [['a'], ['a']] = 50 ∧
    skill_match_percentage [['a'], ['a']] [['a'], ['a']] ≠ 100 := by
  have h1 : ((List.map strLower [['a'], ['a']]).toFinset ∩
      (List.map strLower [['a'], ['a']]).toFinset).card = 1 := by decide
  have h2 : (List.map strLower [['a'], ['a']]).length = 2 := by decide
  have hc : skill_match_percentage [['a'], ['a']] [['a'], ['a']] = 50 := by
    unfold skill_match_percentage
    rw [if_neg (by decide)]
    simp only []
    rw [h1, h2]
    norm_num
  exact ⟨hc, by rw [hc]; norm_num⟩

/-- C3 (amended): for every non-empty skill list with no duplicates after
case folding, `skill_match_percentage X X = 100`. -/
theorem C3_self_match (X : List Str) (hne : X ≠ [])
    (hnd : (X.map strLower).Nodup) :
    skill_match_percentage X X = 100 := by
  unfold skill_match_percentage
  rw [if_neg hne]
  simp only [Finset.inter_self]
  rw [List.toFinset_card_of_nodup hnd]
  have hlen : 0 < (X.map strLower).length := by
    rw [List.length_map]
    exact List.length_pos.mpr hne
  have hQ : ((X.map strLower).length : ℚ) ≠ 0 := by
    exact_mod_cast Nat.pos_iff_ne_zero.mp hlen
  rw [div_self hQ, one_mul]

theorem C3_witness :
    skill_match_percentage [['a'], ['b']] [['a'], ['b']] = 100 :=
  C3_self_match [['a'], ['b']] (by decide) (by decide)

/-- C4: the matcher is case-insensitive — any two input pairs that agree
after case folding give the same result; in particular replacing both
lists by their lowercase forms changes nothing. -/
theorem C4_case_insensitive :
    (∀ R R' C C' : List Str, R'.map strLower = R.map strLower →
      C'.map strLower = C.map strLower →
      skill_match_percentage R' C' = skill_match_percentage R C) ∧
    ∀ R C : List Str,
      skill_match_percentage (R.map strLower) (C.map strLower) =
        skill_match_percentage R C := by
  refine ⟨fun R R' C C' hR hC => skill_match_congr hR hC, fun R C => ?_⟩
  refine skill_match_congr ?_ ?_ <;>
    · rw [List.map_map]
      exact List.map_congr_left fun s _ => strLower_strLower s

theorem C4_witness :
    skill_match_percentage [['A']] [['B']] =
      skill_match_percentage [['a']] [['b']] :=
  C4_case_insensitive.1 [['a']] [['A']] [['b']] [['B']] (by decide) (by decide)

/-- C6: the matcher's value always lies in [0, 100], and hence so does the
MATCH_PERCENTAGE field of every listing record `request` builds. -/
theorem C6_match_percentage_range :
    (∀ R C : List Str,
      0 ≤ skill_match_percentage R C ∧ skill_match_percentage R C ≤ 100) ∧
    ∀ (j : RawJob) (emp : Str × Str) (today job_type : Str)
      (cs : List Str),
      0 ≤ (mkListingRow j emp today job_type cs).MATCH_PERCENTAGE ∧
      (mkListingRow j emp today job_type cs).MATCH_PERCENTAGE ≤ 100 :=
  ⟨fun R C => skill_match_range R C,
   fun j _ _ _ cs =>
     skill_match_range (strIter (pyStrOfList j.requiredSkills)) cs⟩

/-- C5 (counterexample): the cumulative `output_whole.csv` append
performed during scraping does **not** deduplicate — appending a record
whose key already exists in the file leaves two rows with the same
(TITLE, PAYMENT_FROM, PAYMENT_TO) key. -/
theorem C5_counterexample :
    ¬ (appendOutputWhole
        (some [[("TITLE", "t"), ("PAYMENT_FROM", "1"), ("PAYMENT_TO", "2")]])
        [[("TITLE", "t"), ("PAYMENT_FROM", "1"), ("PAYMENT_TO", "2")]]).Pairwise
      (fun a b => rowKey a ≠ rowKey b) := by
  intro h
  exact (List.pairwise_cons.mp h).1 _ (List.mem_cons_self _ _) rfl

/-- C5 (amended): the `save_to_csv` aggregation path does deduplicate —
for any existing file contents and any non-empty record list, its output
has no two rows sharing a (TITLE, PAYMENT_FROM, PAYMENT_TO) key; the raw
append to `output_whole.csv` inside `request` performs no
deduplication. -/
theorem C5_save_to_csv_dedup (data : List RowA) (existing : Option (List RowA))
    (out : List RowA) (hdata : data ≠ [])
    (hout : save_to_csv data existing = some out) :
    out.Pairwise fun a b => rowKey a ≠ rowKey b := by
  unfold save_to_csv at hout
  rw [if_neg (fun h => hdata (List.isEmpty_iff.mp h))] at hout
  simp only [] at hout
  injection hout with hout
  subst hout
  refine List.pairwise_map.mpr ?_
  refine (dropDuplicatesKey_pairwise _).imp ?_
  intro a b hab
  rw [rowKey_projectRow, rowKey_projectRow]
  exact hab

theorem C5_witness :
    save_to_csv [[("TITLE", "t"), ("PAYMENT_FROM", "1"), ("PAYMENT_TO", "2")]]
        (some [[("TITLE", "t"), ("PAYMENT_FROM", "1"), ("PAYMENT_TO", "2")]]) =
      some [projectRow
        [("TITLE", "t"), ("PAYMENT_FROM", "1"), ("PAYMENT_TO", "2")]] ∧
    [projectRow
        [("TITLE", "t"), ("PAYMENT_FROM", "1"), ("PAYMENT_TO", "2")]].Pairwise
      (fun a b => rowKey a ≠ rowKey b) :=
  ⟨rfl,
   C5_save_to_csv_dedup
     [[("TITLE", "t"), ("PAYMENT_FROM", "1"), ("PAYMENT_TO", "2")]]
     (some [[("TITLE", "t"), ("PAYMENT_FROM", "1"), ("PAYMENT_TO", "2")]])
     [projectRow [("TITLE", "t"), ("PAYMENT_FROM", "1"), ("PAYMENT_TO", "2")]]
     (by decide) rfl⟩

/-- C7: any failure inside the `try` body of `request` is caught and the
function returns an empty DataFrame (the empty row list): stated for a
failing body in general, and for the deletion, network and extraction
steps in particular. -/
theorem C7_request_catches_errors (env : ScrapeEnv) (cs : List Str)
    (url jt : Str) :
    (∀ e, requestBody env cs url jt = Except.error e →
      request env cs url jt = []) ∧
    ((∃ e, env.removeOldCsv = Except.error e) →
      request env cs url jt = []) ∧
    ((∃ e, env.httpGet url = Except.error e) →
      request env cs url jt = []) ∧
    ∀ s, env.httpGet url = Except.ok s →
      (∃ e, env.extractListings s = Except.error e) →
      request env cs url jt = [] := by
  refine ⟨?_, ?_, ?_, ?_⟩
  · intro e he
    unfold request
    rw [he]
  · rintro ⟨e, he⟩
    unfold request requestBody
    simp only [he, exbind_err]
  · rintro ⟨e, he⟩
    cases hrm : env.removeOldCsv with
    | error e2 =>
        unfold request requestBody
        simp only [hrm, exbind_err]
    | ok u =>
        unfold request requestBody
        simp only [hrm, he, exbind_ok, exbind_err]
  · rintro s hs ⟨e, he⟩
    cases hrm : env.removeOldCsv with
    | error e2 =>
        unfold request requestBody
        simp only [hrm, exbind_err]
    | ok u =>
        unfold request requestBody
        simp only [hrm, hs, he, exbind_ok, exbind_err]

theorem C7_witness :
    request
      { removeOldCsv := Except.ok ()
        httpGet := fun _ => Except.error PyErr.network
        extractListings := fun _ => Except.ok []
        processListing := fun _ => Except.ok ()
        writeCsv := fun _ _ => Except.ok ()
        today := [] } [] [] [] = [] :=
  (C7_request_catches_errors _ [] [] []).2.2.1 ⟨PyErr.network, rfl⟩

/-- C8: the elbow-based selector returns the floor default of 2 for fewer
than 3 candidate counts, and for every strictly monotonic distortion
curve with no bend (an affine curve with non-zero slope). -/
theorem C8_elbow_default :
    (∀ d : List ℚ, d.length < 3 → select_cluster_count d = 2) ∧
    ∀ (a b : ℚ) (n : ℕ), b ≠ 0 →
      select_cluster_count
        ((List.range n).map fun i : ℕ => a + b * (i : ℚ)) = 2 := by
  constructor
  · intro d hd
    unfold select_cluster_count
    rw [if_pos hd]
  · intro a b n hb
    unfold select_cluster_count
    by_cases hn :
        ((List.range n).map fun i : ℕ => a + b * (i : ℚ)).length < 3
    · rw [if_pos hn]
    · rw [if_neg hn]
      simp only []
      have hlen :
          ((List.range n).map fun i : ℕ => a + b * (i : ℚ)).length = n := by
        rw [List.length_map, List.length_range]
      have hn3 : 3 ≤ n := by
        rw [hlen] at hn
        omega
      have hall : ∀ x ∈ (List.range
            (((List.range n).map fun i : ℕ => a + b * (i : ℚ)).length - 2)).map
          (fun i =>
            scosAt ((List.range n).map fun i : ℕ => a + b * (i : ℚ)) (i + 1)),
          x = -1 := by
        intro x hx
        obtain ⟨i, hi, rfl⟩ := List.mem_map.mp hx
        rw [hlen] at hi
        have hi' : i < n - 2 := List.mem_range.mp hi
        exact scosAt_affine a b n i (by omega)
      rw [argminIdx_const (-1) _ hall]
      rfl

theorem C8_witness :
    select_cluster_count [1] = 2 ∧
    select_cluster_count
      ((List.range 5).map fun i : ℕ => 10 + (-1 : ℚ) * (i : ℚ)) = 2 :=
  ⟨C8_elbow_default.1 [1] (by norm_num),
   C8_elbow_default.2 10 (-1) 5 (by norm_num)⟩

/-- C9: `sanitize_filename` is idempotent and its output contains none of
the characters space, `-`, `/`, `\`, `*`, `|`, `:`, `?`, `<`, `>`, `(`,
`)`. -/
theorem C9_sanitize_idempotent (s : Str) :
    sanitize_filename (sanitize_filename s) = sanitize_filename s ∧
    ((sanitize_filename s).all fun c => !(bannedChars.contains c)) = true := by
  constructor
  · induction s with
    | nil => rfl
    | cons c s ih =>
        rw [sanitize_cons, sanitize_append, ih, sanitizeChar_fixed]
  · induction s with
    | nil => rfl
    | cons c s ih =>
        rw [sanitize_cons, List.all_append, ih, sanitizeChar_banned_free]
        rfl

/-- C10: when a new record's key collides with that of an existing row
that is the first of its key, `save_to_csv` keeps the existing row (up to
the fixed-column projection; literally when the row already carries
exactly the canonical columns) and discards the new record, and every
output row has exactly the twelve required columns in order. -/
theorem C10_first_occurrence_wins (ex l1 l2 data out : List RowA) (e : RowA)
    (hex : ex = l1 ++ e :: l2)
    (hfirst : ∀ x ∈ l1, rowKey x ≠ rowKey e)
    (hdata : data ≠ [])
    (hout : save_to_csv data (some ex) = some out) :
    projectRow e ∈ out ∧
    (projectRow e = e → e ∈ out) ∧
    (∀ r ∈ out, r.map Prod.fst = required_columns) ∧
    ∀ d ∈ data, rowKey d = rowKey e → projectRow d ∈ out →
      projectRow d = projectRow e := by
  unfold save_to_csv at hout
  rw [if_neg (fun h => hdata (List.isEmpty_iff.mp h))] at hout
  simp only [] at hout
  injection hout with hout
  subst hout
  have hmem : e ∈ dropDuplicatesKey (ex ++ data) := by
    rw [hex, List.append_assoc, List.cons_append]
    exact dropDuplicatesKey_first_mem e l1 (l2 ++ data) hfirst
  have hpe : projectRow e ∈ (dropDuplicatesKey (ex ++ data)).map projectRow :=
    List.mem_map_of_mem _ hmem
  have hpair : ((dropDuplicatesKey (ex ++ data)).map projectRow).Pairwise
      fun a b => rowKey a ≠ rowKey b := by
    refine List.pairwise_map.mpr ?_
    refine (dropDuplicatesKey_pairwise _).imp ?_
    intro a b hab
    rw [rowKey_projectRow, rowKey_projectRow]
    exact hab
  refine ⟨hpe, fun hcanon => hcanon ▸ hpe, ?_, ?_⟩
  · intro r hr
    obtain ⟨x, _, rfl⟩ := List.mem_map.mp hr
    exact projectRow_fst x
  · intro d _ hkey hd
    by_contra hne
    have hsym : Symmetric fun a b : RowA => rowKey a ≠ rowKey b :=
      fun a b hab h => hab h.symm
    exact hpair.forall hsym hd hpe hne
      (by rw [rowKey_projectRow, rowKey_projectRow, hkey])

theorem C10_witness :
    projectRow [("TITLE", "t"), ("PAYMENT_FROM", "1"), ("PAYMENT_TO", "2")] ∈
      [projectRow
        [("TITLE", "t"), ("PAYMENT_FROM", "1"), ("PAYMENT_TO", "2")]] ∧
    (projectRow [("TITLE", "t"), ("PAYMENT_FROM", "1"), ("PAYMENT_TO", "2")] =
        [("TITLE", "t"), ("PAYMENT_FROM", "1"), ("PAYMENT_TO", "2")] →
      ([("TITLE", "t"), ("PAYMENT_FROM", "1"), ("PAYMENT_TO", "2")] : RowA) ∈
        [projectRow
          [("TITLE", "t"), ("PAYMENT_FROM", "1"), ("PAYMENT_TO", "2")]]) ∧
    (∀ r ∈ [projectRow
        [("TITLE", "t"), ("PAYMENT_FROM", "1"), ("PAYMENT_TO", "2")]],
      r.map Prod.fst = required_columns) ∧
    ∀ d ∈ [[("TITLE", "t"), ("PAYMENT_FROM", "1"), ("PAYMENT_TO", "2"),
        ("COMPANY", "x")]],
      rowKey d =
        rowKey [("TITLE", "t"), ("PAYMENT_FROM", "1"), ("PAYMENT_TO", "2")] →
      projectRow d ∈ [projectRow
        [("TITLE", "t"), ("PAYMENT_FROM", "1"), ("PAYMENT_TO", "2")]] →
      projectRow d = projectRow
        [("TITLE", "t"), ("PAYMENT_FROM", "1"), ("PAYMENT_TO", "2")] :=
  C10_first_occurrence_wins
    [[("TITLE", "t"), ("PAYMENT_FROM", "1"), ("PAYMENT_TO", "2")]] [] []
    [[("TITLE", "t"), ("PAYMENT_FROM", "1"), ("PAYMENT_TO", "2"),
      ("COMPANY", "x")]]
    [projectRow [("TITLE", "t"), ("PAYMENT_FROM", "1"), ("PAYMENT_TO", "2")]]
    [("TITLE", "t"), ("PAYMENT_FROM", "1"), ("PAYMENT_TO", "2")]
    rfl (fun x hx => absurd hx (List.not_mem_nil x)) (by decide) rfl

end JobAnalyzer
